import Mathlib

/-!
Verification of the flexbackup scheduling script (`src/flexbackup/go-backup-now.py`).

The script is Python 2 (its sibling `src/go-backup-now.py` uses the Python-2-only
`except Exception, error` syntax), so integer `/` is floor division (`Int.fdiv`)
and `%` is the floor-convention remainder (`Int.fmod`).  Python exceptions
(ZeroDivisionError, IndexError, and `self.err` which logs and calls
`sys.exit(1)`) are modelled with `Except String`.

Filesystem-facing parts (GC) are embedded over an explicit directory listing:
an `Entry` is one result of `os.listdir` together with its `os.path.isdir`
status, and `time.mktime` of a local-midnight date is modelled with a constant
local-timezone offset `tz` (seconds east of UTC), so that
`mktime(date) = days_from_civil(date) * 86400 - tz`.
-/

namespace Flexbackup

/-- One entry of a tier list in the YAML `backup_tiers` section: a group of
backup-set names that are backed up together on the same day. -/
abbrev Grp := List String

/-- `BackupManager.flatten`: flatten a list of groups into a flat list. -/
def flatten (l : List Grp) : List String := l.flatten

/-- `BackupManager.get_backup_cycle_listing`: start from a copy of `tier1`,
then for each pair produced by `zip(self.tier2, self.tier1)` append the
tier2 element followed by the tier1 element, then append the tails of
`tier1` and `tier2` beyond the zipped length. -/
def get_backup_cycle_listing (tier1 tier2 : List Grp) : List Grp :=
  let listing := tier1
  let listing := listing ++ (tier2.zip tier1).flatMap (fun p => [p.1, p.2])
  let zipped_len := min tier1.length tier2.length
  let listing := listing ++ tier1.drop zipped_len
  let listing := listing ++ tier2.drop zipped_len
  listing

/-- Spec-style recursive formulation of the interleaved middle block of the
rotation cycle: alternately one element of the first list, then one of the
second, stopping as soon as either runs out. -/
def pairBlock : List Grp → List Grp → List Grp
  | x :: xs, y :: ys => x :: y :: pairBlock xs ys
  | _, _ => []

/-! ### CycleIndexer -/

/-- `day_since_epoch` in `BackupManager.get_cur_cycle_index`:
`int(time.time()) / 86400` with Python 2 floor division. -/
def day_since_epoch (ts : Int) : Int := ts.fdiv 86400

/-- `BackupManager.get_cur_cycle_index`: `day_since_epoch % cycle_len`, raising
ZeroDivisionError when the cycle length is zero (Python `%` follows the floor
convention, i.e. `Int.fmod`). -/
def get_cur_cycle_index (ts : Int) (cycle_len : Int) : Except String Int :=
  if cycle_len = 0 then .error "ZeroDivisionError"
  else .ok ((day_since_epoch ts).fmod cycle_len)

/-! ### BackupSetSelector -/

/-- Python list indexing `l[i]` on an `int` index: a nonnegative index reads
from the front, a negative index wraps from the back, and an out-of-range
index raises IndexError (`none`). -/
def pyIndex {α : Type} (l : List α) (i : Int) : Option α :=
  if 0 ≤ i then l.get? i.toNat
  else if 0 ≤ i + l.length then l.get? (i + l.length).toNat
  else none

/-- Python `list.remove`: drop the first occurrence of `b` (the script only
calls it after an `in` check, so the not-found ValueError cannot occur). -/
def pyRemoveFirst : List String → String → List String
  | [], _ => []
  | x :: xs, b => if x = b then xs else x :: pyRemoveFirst xs b

/-- The removal loop at the end of `get_inc_backup_set`:
`for bset in full_backup_set: if bset in inc_set: inc_set.remove(bset)`. -/
def removeFull (inc_set full_backup_set : List String) : List String :=
  full_backup_set.foldl (fun s b => if b ∈ s then pyRemoveFirst s b else s) inc_set

/-- The scheduling-relevant attributes set up by `BackupManager.__init__`. -/
structure Manager where
  tier1 : List Grp
  tier2 : List Grp
  tier1_inc_freq : Int
  tier2_inc_freq : Int
  backup_cycle_listing : List Grp
  backup_cycle_index : Int

/-- `BackupManager.get_full_backup_set`:
`self.backup_cycle_listing[self.backup_cycle_index]`. -/
def get_full_backup_set (m : Manager) : Option Grp :=
  pyIndex m.backup_cycle_listing m.backup_cycle_index

/-- `BackupManager.get_inc_backup_set`: gather tier1 and/or tier2 according to
`backup_cycle_index % freq == 0` (Python `%` = `Int.fmod`; a zero frequency
raises ZeroDivisionError at this point, and the two modulo expressions are
evaluated in source order), flatten, then remove every member of today's
full-backup set from the result. -/
def get_inc_backup_set (m : Manager) : Except String (List String) :=
  if m.tier1_inc_freq = 0 then .error "ZeroDivisionError" else
  let s1 : List Grp := if m.backup_cycle_index.fmod m.tier1_inc_freq = 0 then m.tier1 else []
  if m.tier2_inc_freq = 0 then .error "ZeroDivisionError" else
  let s2 : List Grp := if m.backup_cycle_index.fmod m.tier2_inc_freq = 0 then m.tier2 else []
  let inc_set := flatten (s1 ++ s2)
  match get_full_backup_set m with
  | none => .error "IndexError"
  | some full_backup_set => .ok (removeFull inc_set full_backup_set)

/-- The configuration fields consumed by `BackupManager.__init__` (the YAML
shape and per-field presence checks of `self.get` are outside the model:
this structure is the already-retrieved configuration). -/
structure RawConf where
  tier1 : List Grp
  tier2 : List Grp
  tier1_inc_freq : Int
  tier2_inc_freq : Int

/-- The scheduling part of `BackupManager.__init__`: store the tier lists and
the incremental frequencies (with **no** positivity validation), build the
rotation cycle and derive today's cycle index — which raises
ZeroDivisionError when the cycle is empty. -/
def manager_init (conf : RawConf) (ts : Int) : Except String Manager :=
  let listing := get_backup_cycle_listing conf.tier1 conf.tier2
  match get_cur_cycle_index ts listing.length with
  | .error e => .error e
  | .ok idx =>
      .ok ⟨conf.tier1, conf.tier2, conf.tier1_inc_freq, conf.tier2_inc_freq, listing, idx⟩

/-- The concrete manager of the C3 counterexample: a backup-set name `A` that
occurs twice inside tier1 (and in no other tier), frequencies 1, cycle index
0, the rotation cycle exactly as built by the code. -/
def c3Manager : Manager :=
  ⟨[["A"], ["A"]], [], 1, 1,
   get_backup_cycle_listing [["A"], ["A"]] [], 0⟩

/-! ### C7: no boundary-time validation of the incremental frequencies -/

/-- The concrete configuration of the C7 counterexample: tier1 frequency 0. -/
def c7conf : RawConf := ⟨[["A"]], [["B"]], 0, 1⟩

/-- The manager `manager_init c7conf 0` actually produces. -/
def c7mgr : Manager := ⟨[["A"]], [["B"]], 0, 1, [["A"], ["B"], ["A"]], 0⟩

/-! ### RetentionPolicy / GC -/

/-- Decimal value of a digit run. -/
def digitsVal (cs : List Char) : Nat :=
  cs.foldl (fun acc c => acc * 10 + (c.toNat - Char.toNat '0')) 0

/-- Gregorian leap-year test (as performed by `datetime.date` validation). -/
def isLeap (y : Nat) : Bool :=
  (y % 4 == 0 && y % 100 != 0) || y % 400 == 0

/-- Length of a month, as validated by the `datetime.datetime` constructor. -/
def daysInMonth (y m : Nat) : Nat :=
  if m = 2 then (if isLeap y then 29 else 28)
  else if m = 4 ∨ m = 6 ∨ m = 9 ∨ m = 11 then 30
  else 31

/-- `datetime.datetime.strptime(date_str, "%Y-%m-%d")`: CPython compiles the
format to the regex `\d\d\d\d` for `%Y`, a 1-2 digit group valued 1..12 for
`%m` and a 1-2 digit group valued 1..31 for `%d`, requires the whole string
to be consumed, and the `datetime` constructor then validates
`1 <= year <= 9999` and the day against the month length (ValueError is
`none`).  A digit run longer than the group's width makes the following
literal `-` (or the end-of-input check) fail, so each run must be exactly
1-2 digits (4 for the year). -/
def parse_date_ymd (s : String) : Option (Nat × Nat × Nat) :=
  let (yd, r1) := s.data.span Char.isDigit
  if yd.length ≠ 4 then none else
  match r1 with
  | '-' :: r1' =>
    let (md, r2) := r1'.span Char.isDigit
    if md.length = 0 ∨ 2 < md.length then none else
    match r2 with
    | '-' :: r2' =>
      let (dd, r3) := r2'.span Char.isDigit
      if dd.length = 0 ∨ 2 < dd.length ∨ r3 ≠ [] then none else
      let y := digitsVal yd
      let m := digitsVal md
      let d := digitsVal dd
      if 1 ≤ y ∧ 1 ≤ m ∧ m ≤ 12 ∧ 1 ≤ d ∧ d ≤ daysInMonth y m then some (y, m, d)
      else none
    | _ => none
  | _ => none

/-- Days from 1970-01-01 to the given civil date (proleptic Gregorian),
the standard era-based algorithm; this is the day count underlying
`time.mktime(d.timetuple())` for a midnight date. -/
def days_from_civil (y m d : Nat) : Int :=
  let yi : Int := if m ≤ 2 then (y : Int) - 1 else (y : Int)
  let era : Int := yi.fdiv 400
  let yoe : Int := yi - era * 400
  let mp : Int := ((m : Int) + 9).fmod 12
  let doy : Int := (153 * mp + 2).fdiv 5 + (d : Int) - 1
  let doe : Int := yoe * 365 + yoe.fdiv 4 - yoe.fdiv 100 + doy
  era * 146097 + doe - 719468

/-- `BackupManager.get_unix_ts_from_date`: strptime the name as `%Y-%m-%d`
and convert the resulting local-midnight date with `time.mktime`, or return
`-1` on ValueError.  The local timezone is modelled as a constant offset
`tz` in seconds east of UTC, so local midnight of a date is
`days * 86400 - tz` in epoch seconds. -/
def get_unix_ts_from_date (tz : Int) (date_str : String) : Int :=
  match parse_date_ymd date_str with
  | none => -1
  | some (y, m, d) => days_from_civil y m d * 86400 - tz

/-- One result of `os.listdir` on a backup set's storage root, together with
its `os.path.isdir` status. -/
structure Entry where
  name : String
  isDir : Bool
deriving DecidableEq

/-- The candidate-collection loop of `_do_backup_gc_each`: keep the entries
that are directories and whose parsed date is a positive timestamp, as
`(name, parsed-date)` pairs (the code stores the full path `tdir/name`;
the set-root prefix is kept separately in this model). -/
def gc_rm_cands (tz : Int) (entries : List Entry) : List (String × Int) :=
  entries.filterMap (fun e =>
    let old_backup_date := get_unix_ts_from_date tz e.name
    if e.isDir ∧ 0 < old_backup_date then some (e.name, old_backup_date) else none)

/-- The comparison used by `rm_cands.sort(key=lambda d: d[1])`. -/
def tsLE (p q : String × Int) : Prop := p.2 ≤ q.2

instance : DecidableRel tsLE := fun p q => inferInstanceAs (Decidable (p.2 ≤ q.2))

instance : IsTotal (String × Int) tsLE := ⟨fun a b => Int.le_total a.2 b.2⟩

instance : IsTrans (String × Int) tsLE := ⟨fun _ _ _ h1 h2 => le_trans h1 h2⟩

/-- `rm_cands.sort(key=lambda d: d[1])`: Python's stable sort by parsed date
(modelled by stable insertion sort; the proved properties use only that the
result is a sorted permutation). -/
def gc_sorted (tz : Int) (entries : List Entry) : List (String × Int) :=
  List.insertionSort tsLE (gc_rm_cands tz entries)

/-- Python slice `l[:-k]`: everything but the last `k` elements for `k > 0`,
and the empty list for `k = 0` (since `l[:0] = []`). -/
def pySliceDropLast {α : Type} (l : List α) (k : Nat) : List α :=
  if k = 0 then [] else l.take (l.length - k)

/-- `rm_cands[:-retention_cnt]` after sorting: the removal candidates that
the GC loop actually deletes. -/
def gc_selection (tz : Int) (entries : List Entry) (retention_cnt : Nat) :
    List (String × Int) :=
  pySliceDropLast (gc_sorted tz entries) retention_cnt

/-- The entries of the sorted candidate list that the slice leaves alone:
the last `retention_cnt` ones. -/
def gc_survivors (tz : Int) (entries : List Entry) (retention_cnt : Nat) :
    List (String × Int) :=
  (gc_sorted tz entries).drop ((gc_sorted tz entries).length - retention_cnt)

/-! ### C8: effect of a candidate-removal failure on sibling sets -/

/-- A backup set's storage root: whether `os.path.exists(tdir)` holds, and
its directory listing. -/
structure SetFS where
  tdirExists : Bool
  entries : List Entry

/-- The removal loop of `_do_backup_gc_each` over the sliced candidates:
`shutil.rmtree` outcomes are modelled by `rmFail set name`; a failing
removal triggers `self.err`, which logs and calls `sys.exit(1)` (modelled as
`.error`, aborting everything after it).  The first component is the trace
of `(set, name)` pairs successfully removed. -/
def gc_remove (rmFail : String → String → Bool) (bset : String) :
    List (String × Int) → List (String × String) × Except String Unit
  | [] => ([], .ok ())
  | c :: cs =>
    if rmFail bset c.1 then
      ([], .error ("Error removing directory " ++ c.1 ++ " during GC"))
    else
      let r := gc_remove rmFail bset cs
      ((bset, c.1) :: r.1, r.2)

/-- `_do_backup_gc_each`: return early when the storage root is missing,
otherwise collect, sort and slice the candidates and remove them; the
returned Bool is `do_clean` (whether any candidate was processed). -/
def gc_each (tz : Int) (fs : String → SetFS) (rmFail : String → String → Bool)
    (bset : String) (retention_cnt : Nat) :
    List (String × String) × Except String Bool :=
  if (fs bset).tdirExists = false then ([], .ok false)
  else
    let rm_cands := gc_selection tz (fs bset).entries retention_cnt
    let r := gc_remove rmFail bset rm_cands
    match r.2 with
    | .error e => (r.1, .error e)
    | .ok _ => (r.1, .ok (!rm_cands.isEmpty))

/-- `_do_backup_gc`: loop over the backup sets of one tier.  The
`try/except OSError` around each set cannot swallow the exit taken by
`self.err` inside `_do_backup_gc_each` (that is a `SystemExit`, and its own
handler exits too), so an error aborts the whole loop. -/
def do_backup_gc_sets (tz : Int) (fs : String → SetFS) (rmFail : String → String → Bool) :
    List String → Nat → List (String × String) × Except String Unit
  | [], _ => ([], .ok ())
  | b :: bs, retention_cnt =>
    let r := gc_each tz fs rmFail b retention_cnt
    match r.2 with
    | .error e => (r.1, .error e)
    | .ok _ =>
      let rest := do_backup_gc_sets tz fs rmFail bs retention_cnt
      (r.1 ++ rest.1, rest.2)

/-- `do_backup_gc`: tier1 sets with retention `CONF_BACKUP_TIER1_RETENTION = 2`,
then tier2 sets with `CONF_BACKUP_TIER2_RETENTION = 1`. -/
def do_backup_gc (tz : Int) (fs : String → SetFS) (rmFail : String → String → Bool)
    (tier1 tier2 : List Grp) : List (String × String) × Except String Unit :=
  let r1 := do_backup_gc_sets tz fs rmFail (flatten tier1) 2
  match r1.2 with
  | .error e => (r1.1, .error e)
  | .ok _ =>
    let r2 := do_backup_gc_sets tz fs rmFail (flatten tier2) 1
    (r1.1 ++ r2.1, r2.2)

/-- The filesystem of the C8 counterexample: sets `s1` and `s2` each hold
two validly dated snapshot directories. -/
def c8fs : String → SetFS := fun s =>
  if s = "s1" then ⟨true, [⟨"2024-01-01", true⟩, ⟨"2024-01-02", true⟩]⟩
  else if s = "s2" then ⟨true, [⟨"2024-01-01", true⟩, ⟨"2024-01-02", true⟩]⟩
  else ⟨false, []⟩

/-- Removal outcomes of the C8 counterexample: every removal inside `s1`
fails, removals elsewhere succeed. -/
def c8rmFail : String → String → Bool := fun bset _ => bset == "s1"

theorem zip_bind_eq_pairBlock :
    ∀ (a b : List Grp), (a.zip b).flatMap (fun p => [p.1, p.2]) = pairBlock a b
  | [], b => by cases b <;> rfl
  | _ :: _, [] => rfl
  | x :: xs, y :: ys => by
    simp only [List.zip_cons_cons, List.flatMap_cons, pairBlock]
    rw [zip_bind_eq_pairBlock xs ys]
    rfl

theorem pair_bind_length (l : List (Grp × Grp)) :
    (l.flatMap fun p => [p.1, p.2]).length = 2 * l.length := by
  induction l with
  | nil => rfl
  | cons x xs ih => simp [ih]; omega

/-- **C1** (counterexample): for `tier1 = [[A],[B]]`, `tier2 = [[C]]` the code
builds the cycle `[A, B, C, A, B]` — after the initial tier1 block the tier2
element comes first in each interleaved pair — and not `[A, B, A, C, B]` as
the claim states. -/
theorem c1_counterexample :
    get_backup_cycle_listing [["A"], ["B"]] [["C"]] = [["A"], ["B"], ["C"], ["A"], ["B"]] ∧
    get_backup_cycle_listing [["A"], ["B"]] [["C"]] ≠ [["A"], ["B"], ["A"], ["C"], ["B"]] := by
  constructor
  · rfl
  · decide

/-- **C1** (amended): the rotation cycle is all of tier1 in order, then for
each paired index `i < min (len tier1) (len tier2)` the pair `tier2[i]`
followed by `tier1[i]` (expressed by the recursive interleaving `pairBlock
tier2 tier1`), then the leftover tail of tier1, then the leftover tail of
tier2; in particular for `tier1 = [[A],[B]]`, `tier2 = [[C]]` the cycle is
`[A, B, C, A, B]`. -/
theorem c1_cycle_structure :
    (∀ tier1 tier2 : List Grp,
      get_backup_cycle_listing tier1 tier2 =
        tier1 ++ pairBlock tier2 tier1
          ++ tier1.drop (min tier1.length tier2.length)
          ++ tier2.drop (min tier1.length tier2.length)) ∧
    get_backup_cycle_listing [["A"], ["B"]] [["C"]] = [["A"], ["B"], ["C"], ["A"], ["B"]] := by
  constructor
  · intro tier1 tier2
    simp only [get_backup_cycle_listing, zip_bind_eq_pairBlock, List.append_assoc]
  · rfl

/-- **C2**: for every `tier1` of length `m` and `tier2` of length `n`
(including `m > n`, `m = 0`, `n = 0`), the rotation cycle has length
exactly `2*m + n`. -/
theorem c2_cycle_length (tier1 tier2 : List Grp) :
    (get_backup_cycle_listing tier1 tier2).length = 2 * tier1.length + tier2.length := by
  simp only [get_backup_cycle_listing, List.length_append, pair_bind_length,
    List.length_zip, List.length_drop]
  omega

/-- **C4**: for every timestamp and every `cycle_len > 0`, the cycle index is
`floor(unix_seconds / 86400) mod cycle_len`, and any computed index lies in
`[0, cycle_len)`. -/
theorem c4_cycle_index_range (ts cycle_len : Int) (h : 0 < cycle_len) :
    get_cur_cycle_index ts cycle_len = .ok ((ts.fdiv 86400).fmod cycle_len) ∧
    ∀ r : Int, get_cur_cycle_index ts cycle_len = .ok r → 0 ≤ r ∧ r < cycle_len := by
  have hne : cycle_len ≠ 0 := ne_of_gt h
  refine ⟨by simp [get_cur_cycle_index, hne, day_since_epoch], ?_⟩
  intro r hr
  simp only [get_cur_cycle_index, hne, if_false, day_since_epoch] at hr
  have hr' : (ts.fdiv 86400).fmod cycle_len = r := by
    cases hr; rfl
  rw [← hr', Int.fmod_eq_emod _ (le_of_lt h)]
  exact ⟨Int.emod_nonneg _ hne, Int.emod_lt_of_pos _ h⟩

theorem c4_cycle_index_range_witness :
    (0 : Int) < 5 ∧
    (get_cur_cycle_index 1000000 5 = .ok ((Int.fdiv 1000000 86400).fmod 5) ∧
     ∀ r : Int, get_cur_cycle_index 1000000 5 = .ok r → 0 ≤ r ∧ r < 5) :=
  ⟨by decide, c4_cycle_index_range 1000000 5 (by decide)⟩

/-- **C5**: for every `cycle_len > 0` and any two timestamps falling in the
same calendar day (modelled as the same whole number of days since the epoch,
which is exactly the quantity the code derives the index from), the computed
cycle index is the same. -/
theorem c5_same_day_same_index (t1 t2 cycle_len : Int) (_hL : 0 < cycle_len)
    (hday : day_since_epoch t1 = day_since_epoch t2) :
    get_cur_cycle_index t1 cycle_len = get_cur_cycle_index t2 cycle_len := by
  simp [get_cur_cycle_index, hday]

theorem c5_same_day_same_index_witness :
    (0 : Int) < 5 ∧ day_since_epoch 90000 = day_since_epoch 100000 ∧
    get_cur_cycle_index 90000 5 = get_cur_cycle_index 100000 5 :=
  ⟨by decide, by decide, c5_same_day_same_index 90000 100000 5 (by decide) (by decide)⟩

theorem pyRemoveFirst_sublist (l : List String) (b : String) :
    (pyRemoveFirst l b).Sublist l := by
  induction l with
  | nil => exact List.Sublist.refl _
  | cons x xs ih =>
    unfold pyRemoveFirst
    by_cases hx : x = b
    · simp only [hx, if_true]
      exact List.sublist_cons_self _ _
    · simp only [hx, if_false]
      exact List.Sublist.cons₂ _ ih

theorem not_mem_pyRemoveFirst_self {l : List String} (h : l.Nodup) (b : String) :
    b ∉ pyRemoveFirst l b := by
  induction l with
  | nil => simp [pyRemoveFirst]
  | cons x xs ih =>
    rcases List.nodup_cons.mp h with ⟨hx, hxs⟩
    unfold pyRemoveFirst
    by_cases hb : x = b
    · simp only [hb, if_true]
      exact hb ▸ hx
    · simp only [hb, if_false]
      intro hmem
      rcases List.mem_cons.mp hmem with rfl | hmem
      · exact hb rfl
      · exact ih hxs hmem

theorem removeFull_sublist :
    ∀ (full inc : List String), (removeFull inc full).Sublist inc := by
  intro full
  induction full with
  | nil => intro inc; exact List.Sublist.refl _
  | cons b rest ih =>
    intro inc
    have step : (removeFull inc (b :: rest)) =
        removeFull (if b ∈ inc then pyRemoveFirst inc b else inc) rest := by
      simp [removeFull, List.foldl_cons]
    rw [step]
    refine (ih _).trans ?_
    by_cases hb : b ∈ inc
    · simp only [hb, if_true]; exact pyRemoveFirst_sublist inc b
    · simp only [hb, if_false]; exact List.Sublist.refl _

theorem removeFull_disjoint :
    ∀ (full inc : List String), inc.Nodup → ∀ x ∈ full, x ∉ removeFull inc full := by
  intro full
  induction full with
  | nil => intro inc _ x hx; cases hx
  | cons b rest ih =>
    intro inc hnd x hx
    have step : (removeFull inc (b :: rest)) =
        removeFull (if b ∈ inc then pyRemoveFirst inc b else inc) rest := by
      simp [removeFull, List.foldl_cons]
    set s1 : List String := if b ∈ inc then pyRemoveFirst inc b else inc with hs1
    have hsub : s1.Sublist inc := by
      rw [hs1]
      by_cases hb : b ∈ inc
      · simp only [hb, if_true]; exact pyRemoveFirst_sublist inc b
      · simp only [hb, if_false]; exact List.Sublist.refl _
    have hnd1 : s1.Nodup := hsub.nodup hnd
    rcases List.mem_cons.mp hx with rfl | hxr
    · have hbs1 : x ∉ s1 := by
        rw [hs1]
        by_cases hb : x ∈ inc
        · rw [if_pos hb]; exact not_mem_pyRemoveFirst_self hnd x
        · rw [if_neg hb]; exact hb
      rw [step]
      intro hmem
      exact hbs1 ((removeFull_sublist rest s1).subset hmem)
    · rw [step]
      exact ih s1 hnd1 x hxr

/-- **C3** (counterexample): with `tier1 = [[A],[A]]`, `tier2 = []`,
frequencies 1 and cycle index 0, both of the claim's preconditions hold
(the index is valid and the name `A` belongs to exactly one tier), yet `A`
is a member of both the full-backup set and the computed incremental set:
`list.remove` only deletes the first occurrence, so the duplicate survives
the subtraction. -/
theorem c3_counterexample :
    (∀ x ∈ flatten c3Manager.tier1, x ∉ flatten c3Manager.tier2) ∧
    c3Manager.backup_cycle_listing =
      get_backup_cycle_listing c3Manager.tier1 c3Manager.tier2 ∧
    (0 : Int) ≤ c3Manager.backup_cycle_index ∧
    c3Manager.backup_cycle_index < c3Manager.backup_cycle_listing.length ∧
    get_full_backup_set c3Manager = some ["A"] ∧
    get_inc_backup_set c3Manager = .ok ["A"] ∧
    "A" ∈ (["A"] : List String) := by
  refine ⟨?_, rfl, by decide, by decide, rfl, rfl, by decide⟩
  intro x _ hx
  cases hx

/-- **C3** (amended): provided the cycle index is valid (the full-set lookup
succeeds) and every backup-set name occurs at most once across the two tier
lists — `Nodup` of the concatenated flattening, which strengthens the
original "belongs to exactly one tier" just enough to rule out the
duplicate-name counterexample — no element appears in both the computed
full-backup set and the computed incremental-backup set. -/
theorem c3_full_inc_disjoint (m : Manager) (inc full : List String)
    (hnd : (flatten m.tier1 ++ flatten m.tier2).Nodup)
    (hinc : get_inc_backup_set m = .ok inc)
    (hfull : get_full_backup_set m = some full) :
    ∀ x ∈ full, x ∉ inc := by
  rcases List.nodup_append.mp hnd with ⟨hnd1, hnd2, _⟩
  unfold get_inc_backup_set at hinc
  by_cases h1 : m.tier1_inc_freq = 0
  · simp only [h1, if_true] at hinc; cases hinc
  · simp only [h1, if_false] at hinc
    by_cases h2 : m.tier2_inc_freq = 0
    · simp only [h2, if_true] at hinc; cases hinc
    · simp only [h2, if_false, hfull] at hinc
      have hinc' : removeFull
          (flatten ((if m.backup_cycle_index.fmod m.tier1_inc_freq = 0 then m.tier1 else [])
            ++ (if m.backup_cycle_index.fmod m.tier2_inc_freq = 0 then m.tier2 else [])))
          full = inc := by
        cases hinc; rfl
      set s1 : List Grp :=
        if m.backup_cycle_index.fmod m.tier1_inc_freq = 0 then m.tier1 else [] with hs1
      set s2 : List Grp :=
        if m.backup_cycle_index.fmod m.tier2_inc_freq = 0 then m.tier2 else [] with hs2
      have hcand : (flatten (s1 ++ s2)).Nodup := by
        have e1 : (flatten s1).Nodup := by
          rw [hs1]; split
          · exact hnd1
          · simp [flatten]
        have e2 : (flatten s2).Nodup := by
          rw [hs2]; split
          · exact hnd2
          · simp [flatten]
        have edisj : (flatten s1).Disjoint (flatten s2) := by
          rcases List.nodup_append.mp hnd with ⟨_, _, hd⟩
          rw [hs1, hs2]
          split
          · split
            · exact hd
            · intro a ha hb; simp [flatten] at hb
          · intro a ha hb; simp [flatten] at ha
        rw [flatten, List.flatten_append]
        exact List.nodup_append.mpr ⟨e1, e2, edisj⟩
      rw [← hinc']
      exact removeFull_disjoint full _ hcand

theorem c3_full_inc_disjoint_witness :
    ((flatten ([["A"], ["B"]] : List Grp) ++ flatten ([["C"]] : List Grp)).Nodup ∧
     get_inc_backup_set ⟨[["A"], ["B"]], [["C"]], 1, 3,
       get_backup_cycle_listing [["A"], ["B"]] [["C"]], 0⟩ = .ok ["B", "C"] ∧
     get_full_backup_set ⟨[["A"], ["B"]], [["C"]], 1, 3,
       get_backup_cycle_listing [["A"], ["B"]] [["C"]], 0⟩ = some ["A"]) ∧
    ∀ x ∈ (["A"] : List String), x ∉ (["B", "C"] : List String) :=
  ⟨⟨by decide, rfl, rfl⟩,
   c3_full_inc_disjoint
     ⟨[["A"], ["B"]], [["C"]], 1, 3, get_backup_cycle_listing [["A"], ["B"]] [["C"]], 0⟩
     ["B", "C"] ["A"] (by decide) rfl rfl⟩

/-- **C7** (counterexample): with a tier1 incremental frequency of 0 — a
non-positive value — initialization completes successfully (no configuration
error is reported before scheduling), and the failure instead surfaces as a
ZeroDivisionError inside `get_inc_backup_set`, i.e. as a runtime arithmetic
error during set selection. -/
theorem c7_counterexample :
    c7conf.tier1_inc_freq ≤ 0 ∧
    manager_init c7conf 0 = .ok c7mgr ∧
    get_inc_backup_set c7mgr = .error "ZeroDivisionError" :=
  ⟨by decide, rfl, rfl⟩

/-- **C7** (amended): the scheduler performs no positivity validation of the
incremental frequencies: for every configuration whose rotation cycle is
nonempty, initialization succeeds regardless of the frequency values, and a
zero frequency instead causes a division-by-zero error later, during
incremental-set selection. -/
theorem c7_no_freq_validation (conf : RawConf) (ts : Int)
    (hne : get_backup_cycle_listing conf.tier1 conf.tier2 ≠ []) :
    (∃ m, manager_init conf ts = .ok m) ∧
    (conf.tier1_inc_freq = 0 →
      ∀ m, manager_init conf ts = .ok m →
        get_inc_backup_set m = .error "ZeroDivisionError") := by
  have hlen : ((get_backup_cycle_listing conf.tier1 conf.tier2).length : Int) ≠ 0 := by
    rw [Int.natCast_ne_zero]
    intro h0
    exact hne (List.length_eq_zero.mp h0)
  constructor
  · refine ⟨⟨conf.tier1, conf.tier2, conf.tier1_inc_freq, conf.tier2_inc_freq,
      get_backup_cycle_listing conf.tier1 conf.tier2, ?_⟩, ?_⟩
    · exact (day_since_epoch ts).fmod ((get_backup_cycle_listing conf.tier1 conf.tier2).length : Int)
    · simp [manager_init, get_cur_cycle_index, hlen]
  · intro h0 m hm
    simp only [manager_init, get_cur_cycle_index, hlen, if_false] at hm
    have hm' : m.tier1_inc_freq = conf.tier1_inc_freq := by
      cases hm; rfl
    simp [get_inc_backup_set, hm', h0]

theorem c7_no_freq_validation_witness :
    (get_backup_cycle_listing (RawConf.mk [["A"]] [["B"]] 0 1).tier1
       (RawConf.mk [["A"]] [["B"]] 0 1).tier2 ≠ []) ∧
    ((∃ m, manager_init ⟨[["A"]], [["B"]], 0, 1⟩ 0 = .ok m) ∧
     ((RawConf.mk [["A"]] [["B"]] 0 1).tier1_inc_freq = 0 →
       ∀ m, manager_init ⟨[["A"]], [["B"]], 0, 1⟩ 0 = .ok m →
         get_inc_backup_set m = .error "ZeroDivisionError")) :=
  ⟨by decide, c7_no_freq_validation ⟨[["A"]], [["B"]], 0, 1⟩ 0 (by decide)⟩

/-- **C6**: for a storage root whose validly dated snapshot directories have
pairwise distinct parsed dates, and a retention count `R` with
`0 < R ≤ N` (`N` = number of validly dated directories), the GC sweep selects
exactly the `N - R` oldest (by parsed date) directories as removal
candidates, and the `R` most recent directories survive: selection and
survivors partition the sorted candidate list (a permutation of the valid
directories), have lengths `N - R` and `R`, and every selected directory is
strictly older than every survivor. -/
theorem c6_gc_retention (tz : Int) (entries : List Entry) (R : Nat)
    (hdist : (gc_rm_cands tz entries).Pairwise (fun p q => p.2 ≠ q.2))
    (hR : 0 < R) (hRN : R ≤ (gc_rm_cands tz entries).length) :
    (gc_selection tz entries R).length = (gc_rm_cands tz entries).length - R ∧
    (gc_survivors tz entries R).length = R ∧
    gc_selection tz entries R ++ gc_survivors tz entries R = gc_sorted tz entries ∧
    (gc_sorted tz entries).Perm (gc_rm_cands tz entries) ∧
    ∀ p ∈ gc_selection tz entries R, ∀ q ∈ gc_survivors tz entries R, p.2 < q.2 := by
  have hperm : (gc_sorted tz entries).Perm (gc_rm_cands tz entries) :=
    List.perm_insertionSort tsLE (gc_rm_cands tz entries)
  have hlen : (gc_sorted tz entries).length = (gc_rm_cands tz entries).length :=
    List.length_insertionSort tsLE (gc_rm_cands tz entries)
  have hsel : gc_selection tz entries R =
      (gc_sorted tz entries).take ((gc_sorted tz entries).length - R) := by
    rw [gc_selection, pySliceDropLast, if_neg (Nat.pos_iff_ne_zero.mp hR)]
  have hsort : (gc_sorted tz entries).Sorted tsLE :=
    List.sorted_insertionSort tsLE (gc_rm_cands tz entries)
  have hdistS : (gc_sorted tz entries).Pairwise (fun p q => p.2 ≠ q.2) :=
    (hperm.pairwise_iff (fun h e => h e.symm)).mpr hdist
  have hlt : (gc_sorted tz entries).Pairwise (fun p q => p.2 < q.2) :=
    (hsort.and hdistS).imp (fun h => lt_of_le_of_ne h.1 h.2)
  have happ : gc_selection tz entries R ++ gc_survivors tz entries R =
      gc_sorted tz entries := by
    rw [hsel, gc_survivors]
    exact List.take_append_drop _ _
  refine ⟨?_, ?_, happ, hperm, ?_⟩
  · rw [hsel, List.length_take, hlen]
    omega
  · rw [gc_survivors, List.length_drop, hlen]
    omega
  · intro p hp q hq
    have := happ ▸ hlt
    exact ((List.pairwise_append.mp this).2.2) p hp q hq

theorem c6_gc_retention_witness :
    ((gc_rm_cands 0 [⟨"2024-01-01", true⟩, ⟨"2024-01-05", true⟩, ⟨"2024-01-10", true⟩]).Pairwise
        (fun p q => p.2 ≠ q.2) ∧
     0 < 1 ∧
     1 ≤ (gc_rm_cands 0 [⟨"2024-01-01", true⟩, ⟨"2024-01-05", true⟩, ⟨"2024-01-10", true⟩]).length) ∧
    ((gc_selection 0 [⟨"2024-01-01", true⟩, ⟨"2024-01-05", true⟩, ⟨"2024-01-10", true⟩] 1).length =
      (gc_rm_cands 0 [⟨"2024-01-01", true⟩, ⟨"2024-01-05", true⟩, ⟨"2024-01-10", true⟩]).length - 1 ∧
     (gc_survivors 0 [⟨"2024-01-01", true⟩, ⟨"2024-01-05", true⟩, ⟨"2024-01-10", true⟩] 1).length = 1 ∧
     gc_selection 0 [⟨"2024-01-01", true⟩, ⟨"2024-01-05", true⟩, ⟨"2024-01-10", true⟩] 1 ++
       gc_survivors 0 [⟨"2024-01-01", true⟩, ⟨"2024-01-05", true⟩, ⟨"2024-01-10", true⟩] 1 =
       gc_sorted 0 [⟨"2024-01-01", true⟩, ⟨"2024-01-05", true⟩, ⟨"2024-01-10", true⟩] ∧
     (gc_sorted 0 [⟨"2024-01-01", true⟩, ⟨"2024-01-05", true⟩, ⟨"2024-01-10", true⟩]).Perm
       (gc_rm_cands 0 [⟨"2024-01-01", true⟩, ⟨"2024-01-05", true⟩, ⟨"2024-01-10", true⟩]) ∧
     ∀ p ∈ gc_selection 0 [⟨"2024-01-01", true⟩, ⟨"2024-01-05", true⟩, ⟨"2024-01-10", true⟩] 1,
       ∀ q ∈ gc_survivors 0 [⟨"2024-01-01", true⟩, ⟨"2024-01-05", true⟩, ⟨"2024-01-10", true⟩] 1,
         p.2 < q.2) :=
  ⟨⟨by decide, by decide, by decide⟩,
   c6_gc_retention 0 [⟨"2024-01-01", true⟩, ⟨"2024-01-05", true⟩, ⟨"2024-01-10", true⟩] 1
     (by decide) (by decide) (by decide)⟩

theorem pySliceDropLast_sublist {α : Type} (l : List α) (k : Nat) :
    (pySliceDropLast l k).Sublist l := by
  rw [pySliceDropLast]
  split
  · exact List.nil_sublist l
  · exact List.take_sublist _ l

theorem mem_gc_rm_cands {tz : Int} {entries : List Entry} {p : String × Int}
    (hp : p ∈ gc_rm_cands tz entries) :
    ∃ e ∈ entries, e.isDir = true ∧ 0 < get_unix_ts_from_date tz e.name ∧
      p = (e.name, get_unix_ts_from_date tz e.name) := by
  rcases List.mem_filterMap.mp hp with ⟨e, he, hfe⟩
  dsimp only at hfe
  split at hfe
  case isTrue h => exact ⟨e, he, h.1, h.2, (Option.some.inj hfe).symm⟩
  case isFalse => cases hfe

theorem mem_gc_selection_mem_cands {tz : Int} {entries : List Entry} {R : Nat}
    {p : String × Int} (hp : p ∈ gc_selection tz entries R) :
    p ∈ gc_rm_cands tz entries :=
  (List.perm_insertionSort tsLE _).subset
    ((pySliceDropLast_sublist _ _).subset hp)

/-- **C9**: for every GC sweep of a storage root with distinct entry names,
an entry whose name fails to parse as a calendar date (e.g. `lost+found`) or
that is not a directory never appears among the removal candidates — and in
particular never in the selected (deleted) slice, whatever the retention
count. -/
theorem c9_unparsable_or_nondir_excluded (tz : Int) (entries : List Entry) (e : Entry)
    (hnames : (entries.map Entry.name).Nodup) (he : e ∈ entries)
    (hbad : parse_date_ymd e.name = none ∨ e.isDir = false) :
    (∀ p ∈ gc_rm_cands tz entries, p.1 ≠ e.name) ∧
    (∀ R, ∀ p ∈ gc_selection tz entries R, p.1 ≠ e.name) := by
  have hmain : ∀ p ∈ gc_rm_cands tz entries, p.1 ≠ e.name := by
    intro p hp hpe
    rcases mem_gc_rm_cands hp with ⟨e', he', hdir, hts, hpe'⟩
    have hname : e'.name = e.name := by rw [hpe'] at hpe; exact hpe
    have heq : e' = e := List.inj_on_of_nodup_map hnames he' he hname
    subst heq
    rcases hbad with hparse | hdir'
    · rw [get_unix_ts_from_date, hparse] at hts
      simp at hts
    · rw [hdir'] at hdir
      cases hdir
  exact ⟨hmain, fun R p hp => hmain p (mem_gc_selection_mem_cands hp)⟩

theorem c9_unparsable_or_nondir_excluded_witness :
    (([⟨"lost+found", true⟩, ⟨"2024-01-01", true⟩] : List Entry).map Entry.name).Nodup ∧
    (⟨"lost+found", true⟩ : Entry) ∈ ([⟨"lost+found", true⟩, ⟨"2024-01-01", true⟩] : List Entry) ∧
    parse_date_ymd "lost+found" = none ∧
    ((∀ p ∈ gc_rm_cands 0 [⟨"lost+found", true⟩, ⟨"2024-01-01", true⟩],
        p.1 ≠ (Entry.mk "lost+found" true).name) ∧
     (∀ R, ∀ p ∈ gc_selection 0 [⟨"lost+found", true⟩, ⟨"2024-01-01", true⟩] R,
        p.1 ≠ (Entry.mk "lost+found" true).name)) :=
  ⟨by decide, by decide, by decide,
   c9_unparsable_or_nondir_excluded 0 [⟨"lost+found", true⟩, ⟨"2024-01-01", true⟩]
     ⟨"lost+found", true⟩ (by decide) (by decide) (Or.inl (by decide))⟩

/-- **C10**: for every GC sweep, a directory name whose parsed date yields a
unix timestamp of zero or less (e.g. `1970-01-01` with a non-west-of-UTC
offset) never appears among the removal candidates nor in the selected
slice, for any retention count: the `> 0` filter treats it exactly like an
unparsable name. -/
theorem c10_nonpositive_date_excluded (tz : Int) (entries : List Entry) (nm : String)
    (hts : get_unix_ts_from_date tz nm ≤ 0) :
    (∀ p ∈ gc_rm_cands tz entries, p.1 ≠ nm) ∧
    (∀ R, ∀ p ∈ gc_selection tz entries R, p.1 ≠ nm) := by
  have hmain : ∀ p ∈ gc_rm_cands tz entries, p.1 ≠ nm := by
    intro p hp hpe
    rcases mem_gc_rm_cands hp with ⟨e', _, _, hts', hpe'⟩
    have hname : e'.name = nm := by rw [hpe'] at hpe; exact hpe
    rw [hname] at hts'
    omega
  exact ⟨hmain, fun R p hp => hmain p (mem_gc_selection_mem_cands hp)⟩

theorem c10_nonpositive_date_excluded_witness :
    parse_date_ymd "1970-01-01" = some (1970, 1, 1) ∧
    get_unix_ts_from_date 0 "1970-01-01" ≤ 0 ∧
    ((∀ p ∈ gc_rm_cands 0 [⟨"1970-01-01", true⟩, ⟨"2024-01-05", true⟩], p.1 ≠ "1970-01-01") ∧
     (∀ R, ∀ p ∈ gc_selection 0 [⟨"1970-01-01", true⟩, ⟨"2024-01-05", true⟩] R,
        p.1 ≠ "1970-01-01")) :=
  ⟨by decide, by decide,
   c10_nonpositive_date_excluded 0 [⟨"1970-01-01", true⟩, ⟨"2024-01-05", true⟩]
     "1970-01-01" (by decide)⟩

/-- **C8** (counterexample): in a GC run over the sets `[s1, s2]` where
removing `s1`'s stale candidate fails, the whole run terminates with the
fatal error (`self.err` exits the process), nothing at all is removed, and
in particular `s2` — which does have a stale candidate — is never processed:
the failure is not isolated at the per-set loop boundary. -/
theorem c8_counterexample :
    (do_backup_gc_sets 0 c8fs c8rmFail ["s1", "s2"] 1).2 =
      .error "Error removing directory 2024-01-01 during GC" ∧
    (do_backup_gc_sets 0 c8fs c8rmFail ["s1", "s2"] 1).1 = [] ∧
    gc_selection 0 (c8fs "s2").entries 1 ≠ [] := by
  refine ⟨rfl, rfl, ?_⟩
  intro h
  simp only [c8fs] at h
  exact absurd h (by decide)

/-- **C8** (amended): a failure to remove one candidate directory is fatal
for the whole GC run, not just for that backup set's pass: when every set
before `b` finishes its pass and `b`'s pass fails, the loop result is that
error, and the sibling sets after `b` are never processed (the outcome is
invariant under replacing them by anything else). -/
theorem c8_gc_failure_fatal_whole_run (tz : Int) (fs : String → SetFS)
    (rmFail : String → String → Bool) (pre : List String) (b : String)
    (post : List String) (retention_cnt : Nat) (e : String)
    (hpre : ∀ s ∈ pre, ∃ x, (gc_each tz fs rmFail s retention_cnt).2 = .ok x)
    (hb : (gc_each tz fs rmFail b retention_cnt).2 = .error e) :
    (do_backup_gc_sets tz fs rmFail (pre ++ b :: post) retention_cnt).2 = .error e ∧
    ∀ post', do_backup_gc_sets tz fs rmFail (pre ++ b :: post) retention_cnt =
      do_backup_gc_sets tz fs rmFail (pre ++ b :: post') retention_cnt := by
  induction pre with
  | nil =>
    simp only [List.nil_append]
    constructor
    · simp only [do_backup_gc_sets, hb]
    · intro post'
      simp only [do_backup_gc_sets, hb]
  | cons s pre' ih =>
    rcases hpre s (List.mem_cons_self s pre') with ⟨x, hx⟩
    have ih' := ih (fun t ht => hpre t (List.mem_cons_of_mem s ht))
    simp only [List.cons_append]
    constructor
    · simp only [do_backup_gc_sets, hx]
      exact ih'.1
    · intro post'
      simp only [do_backup_gc_sets, hx]
      rw [ih'.2 post']

theorem c8_gc_failure_fatal_whole_run_witness :
    ((∀ s ∈ ([] : List String), ∃ x, (gc_each 0 c8fs c8rmFail s 1).2 = .ok x) ∧
     (gc_each 0 c8fs c8rmFail "s1" 1).2 =
       .error "Error removing directory 2024-01-01 during GC") ∧
    ((do_backup_gc_sets 0 c8fs c8rmFail ([] ++ "s1" :: ["s2"]) 1).2 =
       .error "Error removing directory 2024-01-01 during GC" ∧
     ∀ post', do_backup_gc_sets 0 c8fs c8rmFail ([] ++ "s1" :: ["s2"]) 1 =
       do_backup_gc_sets 0 c8fs c8rmFail ([] ++ "s1" :: post') 1) :=
  ⟨⟨fun s hs => absurd hs (List.not_mem_nil s), rfl⟩,
   c8_gc_failure_fatal_whole_run 0 c8fs c8rmFail [] "s1" ["s2"] 1
     "Error removing directory 2024-01-01 during GC"
     (fun s hs => absurd hs (List.not_mem_nil s)) rfl⟩

end Flexbackup
